import Mathlib

/-!
# Verification of the text-normalization core of Newspaper-OCR

Shallow embedding of `src/newspaper_ocr/llm_as_ocr/schema.py`:

* `parse_date_string` (DateNormalizer, `NewspaperText.parse_date_string`,
  lines 63-101): a heuristic multi-format date parser;
* `format_content` (SentenceReflow, `NewspaperText.format_content`,
  lines 108-132): merges OCR-emitted text lines into sentences/paragraphs.

Python strings are modelled as `List Char` (Python indexes and measures
strings by code point, as `List Char` does).

The error model distinguishes the two exception classes that matter to the
source's `try/except ValueError` blocks:

* `int(s)` raises only `ValueError` on a string argument; `pyIntL` returns
  `none` for it.  `pyIntL` follows CPython's string grammar: surrounding
  whitespace, an optional single sign, then a non-empty run of Unicode
  decimal digits (category `Nd`, per the Unicode 14.0 tables of
  CPython 3.11) with single underscores permitted between digits, subject
  to the default `int()` conversion-length limit of 4300 digits
  (CPython ≥ 3.11).
* `datetime.date(y, m, d)` first converts each component to a C `int` and
  raises an *uncaught* `OverflowError` when one lies outside
  `[-2147483648, 2147483647]`; only then does it validate the calendar
  date, raising `ValueError` (caught by the source) on failure.  `pyDate`
  returns a three-valued `TryResult`, and `parse_date_string` propagates
  the overflow case as `PyOutcome.overflowError` — the one way the
  validator itself can raise.
-/

/-! ## Python string primitives -/

/-- Python `s.split(sep)` for a one-character separator `sep`, on the
character list of the string.  `splitOnChar c [] = [[]]`, as in Python
`"".split(sep) == [""]`. -/
def splitOnChar (c : Char) : List Char → List (List Char)
  | [] => [[]]
  | x :: xs =>
    let r := splitOnChar c xs
    if x = c then [] :: r
    else
      match r with
      | [] => [[x]]
      | y :: ys => (x :: y) :: ys

/-- The whitespace characters recognised by Python `str.strip()` and
`str.isspace()` (Unicode 14.0 tables of CPython 3.11). -/
def isPySpace (c : Char) : Bool :=
  let n := c.toNat
  (0x9 ≤ n && n ≤ 0xD) || (0x1C ≤ n && n ≤ 0x20) ||
  n = 0x85 || n = 0xA0 || n = 0x1680 ||
  (0x2000 ≤ n && n ≤ 0x200A) || n = 0x2028 || n = 0x2029 ||
  n = 0x202F || n = 0x205F || n = 0x3000

/-- The whitespace the `int()` parser skips around a numeric string: the
`str.strip()` set minus the four separator controls `U+001C`-`U+001F`
(verified against CPython 3.11: `int("1\x1c")` raises `ValueError` even
though `"1\x1c".strip() == "1"`). -/
def isIntSpace (c : Char) : Bool :=
  isPySpace c && !(0x1C ≤ c.toNat && c.toNat ≤ 0x1F)

/-- The whitespace stripping performed by the `int()` parser. -/
def stripL (s : List Char) : List Char :=
  ((s.dropWhile isIntSpace).reverse.dropWhile isIntSpace).reverse

/-- Python `not line.strip()`: the line is empty or all whitespace. -/
def isBlankL (line : List Char) : Bool :=
  line.all isPySpace

/-- First code point of every Unicode category-`Nd` block (Unicode 14.0,
the tables of CPython 3.11).  Each block is a contiguous run of the ten
digits `0..9` in order, so a character `c` is a decimal digit of value
`c.toNat - b` exactly when some base `b` here satisfies
`b ≤ c.toNat ≤ b + 9`. -/
def ndDigitBases : List Nat :=
  [0x30, 0x660, 0x6F0, 0x7C0, 0x966, 0x9E6, 0xA66, 0xAE6,
  0xB66, 0xBE6, 0xC66, 0xCE6, 0xD66, 0xDE6, 0xE50, 0xED0,
  0xF20, 0x1040, 0x1090, 0x17E0, 0x1810, 0x1946, 0x19D0, 0x1A80,
  0x1A90, 0x1B50, 0x1BB0, 0x1C40, 0x1C50, 0xA620, 0xA8D0, 0xA900,
  0xA9D0, 0xA9F0, 0xAA50, 0xABF0, 0xFF10, 0x104A0, 0x10D30, 0x11066,
  0x110F0, 0x11136, 0x111D0, 0x112F0, 0x11450, 0x114D0, 0x11650, 0x116C0,
  0x11730, 0x118E0, 0x11950, 0x11C50, 0x11D50, 0x11DA0, 0x16A60, 0x16AC0,
  0x16B50, 0x1D7CE, 0x1D7D8, 0x1D7E2, 0x1D7EC, 0x1D7F6, 0x1E140, 0x1E2F0,
  0x1E950, 0x1FBF0]

/-- Decimal value of a Unicode decimal digit (category `Nd`), `none` for
any other character.  `int()` accepts exactly these as digits, e.g.
`int("１２３") == 123`. -/
def pyDigitVal? (c : Char) : Option Nat :=
  match ndDigitBases.find? (fun b => b ≤ c.toNat && c.toNat ≤ b + 9) with
  | some b => some (c.toNat - b)
  | none => none

/-- The digits following the first one in `int()`'s string grammar: a
single underscore may separate two digits (`1_2` parses, while `_1`, `1_`
and `1__2` do not).  Returns the digit values in order. -/
def pyDigitRun? : List Char → Option (List Nat)
  | [] => some []
  | '_' :: c :: rest =>
    match pyDigitVal? c with
    | some d => (pyDigitRun? rest).map (d :: ·)
    | none => none
  | c :: rest =>
    match pyDigitVal? c with
    | some d => (pyDigitRun? rest).map (d :: ·)
    | none => none

/-- The default `int()` conversion-length limit
(`sys.int_info.default_max_str_digits`, CPython ≥ 3.11): a decimal string
with more than this many digits (underscores and sign excluded) raises
`ValueError`. -/
def maxStrDigits : Nat :=
  4300

/-- Numeric value of a list of digit values. -/
def digitsVal (ds : List Nat) : Nat :=
  ds.foldl (fun acc d => 10 * acc + d) 0

/-- Python `int(s)` on a string: `none` models `ValueError` (this is the
only exception `int()` raises on a string argument).  Surrounding
whitespace, an optional sign, then a non-empty underscore-grouped run of
Unicode decimal digits of at most `maxStrDigits` digits. -/
def pyIntL (s : List Char) : Option Int :=
  let t := stripL s
  let signed : Bool × List Char :=
    match t with
    | '-' :: rest => (true, rest)
    | '+' :: rest => (false, rest)
    | _ => (false, t)
  match signed.2 with
  | [] => none
  | c :: rest =>
    match pyDigitVal? c with
    | none => none
    | some d0 =>
      match pyDigitRun? rest with
      | none => none
      | some ds =>
        if maxStrDigits < (d0 :: ds).length then none
        else
          let n := digitsVal (d0 :: ds)
          some (if signed.1 then -(Int.ofNat n) else Int.ofNat n)

/-! ## The calendar-date model (`datetime.date`) -/

/-- A `datetime.date` value: year, month, day. -/
structure CalDate where
  year : Int
  month : Int
  day : Int
deriving DecidableEq

/-- Gregorian leap year (only consulted for `1 ≤ y ≤ 9999`). -/
def isLeap (y : Int) : Bool :=
  y % 4 = 0 && (y % 100 ≠ 0 || y % 400 = 0)

/-- Days in a month of the proleptic Gregorian calendar. -/
def daysInMonth (y m : Int) : Int :=
  if m = 2 then (if isLeap y then 29 else 28)
  else if m = 4 || m = 6 || m = 9 || m = 11 then 30
  else 31

/-- Validity check performed by the `datetime.date` constructor. -/
def isValidYMD (y m d : Int) : Bool :=
  1 ≤ y && y ≤ 9999 && 1 ≤ m && m ≤ 12 && 1 ≤ d && d ≤ daysInMonth y m

/-- Outcome of one of the source's `try` blocks: it returned a date, or it
raised-and-caught `ValueError` (or, in the delimited branch, fell through a
failed `len(parts) == 3` test with no return) so that control reaches
`return v`, or it raised an uncaught `OverflowError` that propagates out of
the validator. -/
inductive TryResult where
  | date (dt : CalDate)
  | valueError
  | overflowError
deriving DecidableEq

/-- Whether an integer fits a 32-bit C `int`, the conversion applied by
`datetime.date` to each component before any calendar validation
(`date(2147483648, 1, 1)` raises `OverflowError`, not `ValueError`). -/
def fitsCInt (n : Int) : Bool :=
  -2147483648 ≤ n && n ≤ 2147483647

/-- Python `date(y, m, d)`: an uncaught `OverflowError` when a component is
outside the C `int` range, a (caught) `ValueError` on an invalid calendar
date, and the date otherwise. -/
def pyDate (y m d : Int) : TryResult :=
  if !(fitsCInt y && fitsCInt m && fitsCInt d) then .overflowError
  else if isValidYMD y m d then .date ⟨y, m, d⟩
  else .valueError

/-! ## DateNormalizer (`NewspaperText.parse_date_string`, schema.py 63-101) -/

/-- The argument of `parse_date_string`.  The validator receives `Any`; the
only non-string value that reaches it in this schema is an already-parsed
`datetime.date`, modelled by the `date` constructor.  `isinstance(v, str)`
fails on it, so the code returns it unchanged. -/
inductive DateInput where
  | str (s : String)
  | date (d : CalDate)
deriving DecidableEq

/-- The `try` block of the Chinese-date branch (schema.py 77-83):
`year = int(v.split("年")[0])`, `month = int(v.split("年")[1].split("月")[0])`,
`day = int(v.split("月")[1].split("日")[0])`, `return date(year, month, day)`.
An `int()` failure is a caught `ValueError` (the code then falls to
`return v`); `date()` may also raise the uncaught `OverflowError`. -/
def tryCJK (s : List Char) : TryResult :=
  match pyIntL ((splitOnChar '年' s).getD 0 []) with
  | none => .valueError
  | some y =>
    match pyIntL ((splitOnChar '月' ((splitOnChar '年' s).getD 1 [])).getD 0 []) with
    | none => .valueError
    | some m =>
      match pyIntL ((splitOnChar '日' ((splitOnChar '月' s).getD 1 [])).getD 0 []) with
      | none => .valueError
      | some d => pyDate y m d

/-- `"年" in v and "月" in v and "日" in v` (schema.py line 76). -/
def hasCJK (s : List Char) : Bool :=
  s.contains '年' && s.contains '月' && s.contains '日'

/-- `parts = v.split("/") if "/" in v else v.split("-")` (schema.py line 87). -/
def delimParts (s : List Char) : List (List Char) :=
  if s.contains '/' then splitOnChar '/' s else splitOnChar '-' s

/-- The `try` block of the delimited branch (schema.py 88-99): only a
three-part split is considered (a failed `len(parts) == 3` test exits the
block with no return, which `.valueError` also covers: control reaches
`return v` either way); a four-character first part is read year-first;
otherwise the second part decides month-first (`> 12`) versus day-first.
`date()` may raise the uncaught `OverflowError`. -/
def trySlash (parts : List (List Char)) : TryResult :=
  match parts with
  | [p0, p1, p2] =>
    if p0.length = 4 then
      match pyIntL p0, pyIntL p1, pyIntL p2 with
      | some y, some m, some d => pyDate y m d
      | _, _, _ => .valueError
    else
      match pyIntL p1 with
      | none => .valueError
      | some b =>
        if 12 < b then
          match pyIntL p0, pyIntL p1, pyIntL p2 with
          | some m, some d, some y => pyDate y m d
          | _, _, _ => .valueError
        else
          match pyIntL p0, pyIntL p1, pyIntL p2 with
          | some d, some m, some y => pyDate y m d
          | _, _, _ => .valueError
  | _ => .valueError

/-- Outcome of one call of the validator: a normal return, or an uncaught
`OverflowError` escaping it (the only exception not absorbed by its
`except ValueError` handlers). -/
inductive PyOutcome where
  | ok (v : DateInput)
  | overflowError
deriving DecidableEq

/-- `NewspaperText.parse_date_string` (schema.py 63-101). -/
def parse_date_string : DateInput → PyOutcome
  | .date d => .ok (.date d)
  | .str v =>
    if hasCJK v.data then
      match tryCJK v.data with
      | .date dt => .ok (.date dt)
      | .valueError => .ok (.str v)
      | .overflowError => .overflowError
    else if v.data.contains '/' || v.data.contains '-' then
      match trySlash (delimParts v.data) with
      | .date dt => .ok (.date dt)
      | .valueError => .ok (.str v)
      | .overflowError => .overflowError
    else .ok (.str v)

/-! ## SentenceReflow (`NewspaperText.format_content`, schema.py 108-132) -/

/-- The tuple `ending_symbols` (schema.py line 112). -/
def endingSymbols : List Char :=
  ['.', '。', '!', '?', ':', ';', '」', '』', '）', ')', '》', '"', '\'', '*']

/-- `current_sentence[-1] in ending_symbols`. -/
def isEnding (c : Char) : Bool :=
  endingSymbols.contains c

/-- `line.startswith("**")`. -/
def startsWith2Star : List Char → Bool
  | '*' :: '*' :: _ => true
  | _ => false

/-- Last character of a non-empty character list (the code indexes
`current_sentence[-1]` only under the guard that the accumulator is
non-empty, so the default is never consulted there). -/
def lastCharD : List Char → Char
  | [] => ' '
  | [c] => c
  | _ :: c :: rest => lastCharD (c :: rest)

/-- Last character, `none` on the empty list (used to model the `[-1]`
indexing transparently: `none` would be Python's `IndexError`). -/
def lastChar? : List Char → Option Char
  | [] => none
  | [c] => some c
  | _ :: c :: rest => lastChar? (c :: rest)

/-- The loop of `concatenate_sentences` (schema.py 113-129), as a recursion
over the remaining lines with the accumulator `current_sentence` as state;
returns the list of yielded strings (the final `if current_sentence: yield`
included). -/
def concatAux : List (List Char) → List Char → List (List Char)
  | [], acc => if acc.isEmpty then [] else [acc]
  | line :: ls, acc =>
    if isBlankL line then
      (if acc.isEmpty then [] else [acc]) ++ [] :: concatAux ls []
    else if acc.isEmpty then
      concatAux ls line
    else if isEnding (lastCharD acc) || startsWith2Star line then
      acc :: concatAux ls line
    else
      concatAux ls (acc ++ line)

/-- `list(concatenate_sentences(content))` started with the empty
accumulator (schema.py line 131). -/
def concatenateSentences (lines : List (List Char)) : List (List Char) :=
  concatAux lines []

/-- Python `text.splitlines()` restricted to `\n` line boundaries: no entry
for a trailing newline, and `"".splitlines() == []`. -/
def pySplitlines (s : List Char) : List (List Char) :=
  if s.isEmpty then []
  else if s.getLast? = some '\n' then (splitOnChar '\n' s).dropLast
  else splitOnChar '\n' s

/-- `NewspaperText.format_content` (schema.py 108-132): split into lines,
reflow, rejoin with `"\n".join(...)`. -/
def format_content (content : String) : String :=
  ⟨List.intercalate ['\n'] (concatenateSentences (pySplitlines content.data))⟩

/-- Exception-transparent variant of `concatAux`: the `current_sentence[-1]`
indexing is modelled by `lastChar?`, and an out-of-bounds index (`none`)
aborts the whole computation, as an uncaught `IndexError` would. -/
def concatAuxE : List (List Char) → List Char → Option (List (List Char))
  | [], acc => some (if acc.isEmpty then [] else [acc])
  | line :: ls, acc =>
    if isBlankL line then
      (concatAuxE ls []).map (fun r => (if acc.isEmpty then [] else [acc]) ++ [] :: r)
    else if acc.isEmpty then
      concatAuxE ls line
    else
      match lastChar? acc with
      | none => none
      | some c =>
        if isEnding c || startsWith2Star line then
          (concatAuxE ls line).map (acc :: ·)
        else
          concatAuxE ls (acc ++ line)

/-- Exception-transparent variant of `format_content`. -/
def formatContentE (content : String) : Option String :=
  (concatAuxE (pySplitlines content.data) []).map
    (fun ls => ⟨List.intercalate ['\n'] ls⟩)

/-! ## The validator pipeline for the `content` field

`NewspaperText` attaches two `mode="after"` validators to `content`:
`s2hk_validator` (schema.py 103-106, the script-conversion transform) and
`format_content` (schema.py 108-132).  Pydantic v2 chains `mode="after"`
field validators in definition order, so the conversion runs first and the
reflow second.  The conversion itself (`opencc`) is an external library, so
it is carried as an opaque parameter `t`. -/

/-- The `mode="after"` validator chain of the `content` field, in the
definition order of the class body: `s2hk_validator` (line 103) before
`format_content` (line 108). -/
def contentValidatorChain (t : String → String) : List (String → String) :=
  [t, format_content]

/-- Running the validator chain on a raw extracted `content` value. -/
def contentPipeline (t : String → String) (c : String) : String :=
  (contentValidatorChain t).foldl (fun x f => f x) c

/-! ## The claim-C4 reading of the Chinese-date extraction

A second definition, written from the claim's words rather than from the
source, for comparison with `tryCJK`: "parses the substring before 年 as
the year, between 年 and 月 as the month, and between 月 and 日 as the
day" — i.e. the year is the text before the first 年, the month the text
after the first 年 up to the next 月, and the day the text after the first
月 up to the next 日. -/

/-- Characters strictly before the first occurrence of `c`. -/
def beforeFirst (c : Char) : List Char → List Char
  | [] => []
  | x :: xs => if x = c then [] else x :: beforeFirst c xs

/-- Characters strictly after the first occurrence of `c`. -/
def afterFirst (c : Char) : List Char → List Char
  | [] => []
  | x :: xs => if x = c then xs else afterFirst c xs

/-- Claim C4's description of the Chinese-date branch, taken at its words:
year = substring before 年, month = substring between 年 and 月, day =
substring between 月 and 日; if all three parse and form a valid calendar
date return it, otherwise return the original string unchanged. -/
def cjkSpecReading (v : String) : DateInput :=
  let s := v.data
  match pyIntL (beforeFirst '年' s) with
  | none => .str v
  | some y =>
    match pyIntL (beforeFirst '月' (afterFirst '年' s)) with
    | none => .str v
    | some m =>
      match pyIntL (beforeFirst '日' (afterFirst '月' s)) with
      | none => .str v
      | some d =>
        match pyDate y m d with
        | .date dt => .date dt
        | _ => .str v

/-- Claim C5's phrasing "the parts are read as year, month, day": parse the
three given part-strings in that role order and hand them to `date()` —
returning the date, falling back to the original string on a (caught)
`ValueError`, and propagating `date()`'s uncaught `OverflowError`. -/
def readAsYMD (ys ms ds : List Char) (v : String) : PyOutcome :=
  match pyIntL ys, pyIntL ms, pyIntL ds with
  | some y, some m, some d =>
    match pyDate y m d with
    | .date dt => .ok (.date dt)
    | .valueError => .ok (.str v)
    | .overflowError => .overflowError
  | _, _, _ => .ok (.str v)

/-! ## Helper lemmas -/

/-- A date constructed by `pyDate` passed the calendar-validity check. -/
theorem pyDate_valid {y m d : Int} {dt : CalDate} (h : pyDate y m d = .date dt) :
    isValidYMD dt.year dt.month dt.day = true := by
  unfold pyDate at h
  split at h
  · cases h
  · split at h
    · cases h
      assumption
    · cases h

/-- Any date produced by the Chinese-date branch is calendar-valid. -/
theorem tryCJK_valid {s : List Char} {dt : CalDate} (h : tryCJK s = .date dt) :
    isValidYMD dt.year dt.month dt.day = true := by
  unfold tryCJK at h
  split at h
  · cases h
  · split at h
    · cases h
    · split at h
      · cases h
      · exact pyDate_valid h

/-- Any date produced by the delimited branch is calendar-valid. -/
theorem trySlash_valid {parts : List (List Char)} {dt : CalDate}
    (h : trySlash parts = .date dt) :
    isValidYMD dt.year dt.month dt.day = true := by
  unfold trySlash at h
  split at h
  · split at h
    · split at h
      · exact pyDate_valid h
      · cases h
    · split at h
      · cases h
      · split at h
        · split at h
          · exact pyDate_valid h
          · cases h
        · split at h
          · exact pyDate_valid h
          · cases h
  · cases h

/-- A split that is not exactly three parts makes the delimited `try`
block fall through with no return (and no exception), so control reaches
`return v`. -/
theorem trySlash_fallthrough_of_length {parts : List (List Char)}
    (h : parts.length ≠ 3) : trySlash parts = .valueError := by
  match parts with
  | [] => rfl
  | [_] => rfl
  | [_, _] => rfl
  | [_, _, _] => exact absurd rfl h
  | _ :: _ :: _ :: _ :: _ => rfl

/-- On a non-empty list the transparent last-character lookup succeeds and
agrees with the defaulted one. -/
theorem lastChar?_eq : ∀ (l : List Char), l ≠ [] → lastChar? l = some (lastCharD l) := by
  intro l
  induction l with
  | nil => intro h; exact absurd rfl h
  | cons a t ih =>
    intro _
    cases t with
    | nil => rfl
    | cons b t2 =>
      show lastChar? (b :: t2) = some (lastCharD (b :: t2))
      exact ih (by simp)

/-- A list that is not all-whitespace is non-empty. -/
theorem ne_nil_of_not_blank {l : List Char} (h : isBlankL l = false) : l ≠ [] := by
  intro he
  subst he
  simp [isBlankL] at h

/-- `isEmpty = false` for a list known to be non-empty. -/
theorem isEmpty_eq_false {l : List Char} (h : l ≠ []) : l.isEmpty = false := by
  cases l with
  | nil => exact absurd rfl h
  | cons a t => rfl

/-- The exception-transparent loop never hits the `IndexError` case: it
always succeeds, with the same emissions as the straight loop.  The
`current_sentence[-1]` lookup only happens on the branch whose guard has
already established a non-empty accumulator. -/
theorem concatAuxE_eq : ∀ (ls : List (List Char)) (acc : List Char),
    concatAuxE ls acc = some (concatAux ls acc) := by
  intro ls
  induction ls with
  | nil => intro acc; rfl
  | cons line rest ih =>
    intro acc
    by_cases hb : isBlankL line
    · simp [concatAuxE, concatAux, hb, ih]
    · by_cases ha : acc.isEmpty
      · simp [concatAuxE, concatAux, hb, ha, ih]
      · have hne : acc ≠ [] := by
          intro he; subst he; simp at ha
        rw [concatAuxE, concatAux, if_neg hb, if_neg hb, if_neg ha, if_neg ha,
          lastChar?_eq acc hne]
        by_cases hc : (isEnding (lastCharD acc) || startsWith2Star line) = true
        · simp [hc, ih]
        · simp [hc, ih]

/-- On lines that are each non-blank and already terminated by an ending
symbol, the loop emits the pending accumulator before every line and each
line becomes its own sentence. -/
theorem concatAux_clean : ∀ (ls : List (List Char)) (acc : List Char),
    acc ≠ [] → isEnding (lastCharD acc) = true →
    (∀ l ∈ ls, isBlankL l = false ∧ isEnding (lastCharD l) = true) →
    concatAux ls acc = acc :: ls := by
  intro ls
  induction ls with
  | nil =>
    intro acc hne _ _
    simp [concatAux, isEmpty_eq_false hne]
  | cons line rest ih =>
    intro acc hne hend hall
    have hline := hall line (by simp)
    rw [concatAux, if_neg (by simp [hline.1]), if_neg (by simp [isEmpty_eq_false hne]),
      if_pos (by simp [hend])]
    have := ih line (ne_nil_of_not_blank hline.1) hline.2
      (fun l hl => hall l (by simp [hl]))
    rw [this]

/-- Content preservation of the loop: concatenating the non-empty emissions
recovers the accumulator followed by the concatenation of the non-blank
input lines, in order. -/
theorem concatAux_join : ∀ (ls : List (List Char)) (acc : List Char),
    ((concatAux ls acc).filter (fun l => !l.isEmpty)).flatten =
      acc ++ ((ls.filter (fun l => !isBlankL l)).flatten) := by
  intro ls
  induction ls with
  | nil =>
    intro acc
    cases acc with
    | nil => simp [concatAux]
    | cons a t => simp [concatAux]
  | cons line rest ih =>
    intro acc
    by_cases hb : isBlankL line
    · rw [concatAux, if_pos hb]
      cases acc with
      | nil => simp [hb, ih []]
      | cons a t => simp [hb, ih []]
    · by_cases ha : acc.isEmpty
      · have : acc = [] := by
          cases acc with
          | nil => rfl
          | cons x xs => simp at ha
        subst this
        simp [concatAux, hb, ih line]
      · rw [concatAux, if_neg (by simp [hb]), if_neg (by simp [ha])]
        by_cases hc : (isEnding (lastCharD acc) || startsWith2Star line) = true
        · rw [if_pos hc]
          simp [ha, hb, ih line, List.append_assoc]
        · rw [if_neg hc]
          simp [hb, ih (acc ++ line), List.append_assoc]

/-! ## Claim theorems -/

/-- Counterexample to claim C1 as stated.  The claim says the validator
never raises, but on `"2147483648年1月1日"` all three components parse
(`int("2147483648") = 2^31`) and `datetime.date` raises `OverflowError` —
not `ValueError` — which no handler in the source catches, so the
validator raises. -/
theorem parse_raises_counterexample :
    parse_date_string (.str "2147483648年1月1日") = .overflowError ∧
    pyDate 2147483648 1 1 = .overflowError := by
  constructor
  · decide
  · decide

/-- Claim C1 as amended: `parse_date_string` returns for every input except
that an uncaught `OverflowError` from `datetime.date` escapes it (the
`except ValueError` handlers catch nothing else); whenever it returns, the
result is either a calendar date that passed the validity check of the
`date` constructor or the original input unchanged, and a non-string input
(an already-parsed calendar date) always passes through unchanged without
raising. -/
theorem parse_date_string_total_amended :
    (∀ v : DateInput,
      parse_date_string v = .ok v ∨
      (∃ dt : CalDate, isValidYMD dt.year dt.month dt.day = true ∧
        parse_date_string v = .ok (.date dt)) ∨
      parse_date_string v = .overflowError) ∧
    (∀ dt : CalDate, parse_date_string (.date dt) = .ok (.date dt)) := by
  constructor
  · intro v
    cases v with
    | date d => exact Or.inl rfl
    | str s =>
      rw [parse_date_string]
      by_cases h1 : hasCJK s.data = true
      · rw [if_pos h1]
        cases h : tryCJK s.data with
        | date dt => exact Or.inr (Or.inl ⟨dt, tryCJK_valid h, rfl⟩)
        | valueError => exact Or.inl rfl
        | overflowError => exact Or.inr (Or.inr rfl)
      · rw [if_neg h1]
        by_cases h2 : (s.data.contains '/' || s.data.contains '-') = true
        · rw [if_pos h2]
          cases h : trySlash (delimParts s.data) with
          | date dt => exact Or.inr (Or.inl ⟨dt, trySlash_valid h, rfl⟩)
          | valueError => exact Or.inl rfl
          | overflowError => exact Or.inr (Or.inr rfl)
        · rw [if_neg h2]
          exact Or.inl rfl
  · intro dt
    rfl

/-- Claim C2: for a non-blank line processed while the accumulator is
non-empty, the accumulator is emitted and the line starts a new accumulator
exactly when the accumulator's last character is an ending symbol or the
line starts with `**`; otherwise the line is appended with no separator.
In particular `format_content "Hello\nWorld." = "HelloWorld."`. -/
theorem reflow_nonblank_step (line : List Char) (ls : List (List Char)) (acc : List Char)
    (h1 : isBlankL line = false) (h2 : acc ≠ []) :
    concatAux (line :: ls) acc =
      (if isEnding (lastCharD acc) || startsWith2Star line then acc :: concatAux ls line
       else concatAux ls (acc ++ line)) ∧
    format_content "Hello\nWorld." = "HelloWorld." := by
  refine ⟨?_, by decide⟩
  rw [concatAux, if_neg (by simp [h1]), if_neg (by simp [isEmpty_eq_false h2])]

/-- Witness for claim C2, at `acc = "Hello"`, `line = "World."`. -/
theorem reflow_nonblank_step_witness :
    format_content "Hello\nWorld." = "HelloWorld." :=
  (reflow_nonblank_step "World.".data [] "Hello".data (by decide) (by decide)).2

/-- Claim C3: a blank line first flushes the pending sentence if one exists,
then always emits exactly one empty string as a paragraph-break marker, and
the accumulator restarts empty.  In particular
`format_content "A.\n\nB." = "A.\n\nB."`. -/
theorem reflow_blank_line_step (line : List Char) (ls : List (List Char)) (acc : List Char)
    (h : isBlankL line = true) :
    concatAux (line :: ls) acc =
      (if acc.isEmpty then [] else [acc]) ++ [] :: concatAux ls [] ∧
    format_content "A.\n\nB." = "A.\n\nB." := by
  refine ⟨?_, by decide⟩
  rw [concatAux, if_pos h]

/-- Witness for claim C3, at a one-space blank line. -/
theorem reflow_blank_line_step_witness :
    format_content "A.\n\nB." = "A.\n\nB." :=
  (reflow_blank_line_step " ".data [] [] (by decide)).2

/-- Counterexample to claim C4 as stated, on two of its assertions.  On
`"1年2月3月4日"` (all three markers present) the claim's reading of "the
substring between 月 and 日" is `"3月4"`, whose integer parse fails, so
the claim predicts the string is returned unchanged; the code instead
takes `v.split("月")[1].split("日")[0] = "3"` and returns `date(1, 2, 3)`.
And on `"2147483648年1月2日"` the claim's "otherwise it returns the
original string unchanged" fails too: `datetime.date` raises an uncaught
`OverflowError`. -/
theorem cjk_claim_counterexample :
    hasCJK "1年2月3月4日".data = true ∧
    parse_date_string (.str "1年2月3月4日") = .ok (.date ⟨1, 2, 3⟩) ∧
    cjkSpecReading "1年2月3月4日" = .str "1年2月3月4日" ∧
    parse_date_string (.str "1年2月3月4日") ≠ .ok (cjkSpecReading "1年2月3月4日") ∧
    parse_date_string (.str "2147483648年1月2日") = .overflowError := by
  constructor
  · decide
  constructor
  · decide
  constructor
  · decide
  constructor
  · decide
  · decide

/-- Claim C4 as amended: for every string containing all three markers the
result is decided exclusively by the Chinese-date branch `tryCJK` — year is
the text before the first 年; the month is the first 月-delimited piece of
`split("年")[1]` (the text between the first and second 年); the day is the
first 日-delimited piece of `split("月")[1]` (the text between the first
and second 月).  If the three parse, within the C `int` range, to a valid
calendar date that date is returned; if a parse or the calendar validation
fails the original string is returned unchanged; if a component overflows a
C `int`, the uncaught `OverflowError` escapes.  The delimited numeric
format is never attempted, even when the string also contains `/` or `-`. -/
theorem cjk_parse_amended (v : String) (h : hasCJK v.data = true) :
    parse_date_string (.str v) =
      (match tryCJK v.data with
       | .date dt => .ok (.date dt)
       | .valueError => .ok (.str v)
       | .overflowError => .overflowError) ∧
    parse_date_string (.str "2023年5月10日") = .ok (.date ⟨2023, 5, 10⟩) ∧
    parse_date_string (.str "2023/5/10日月年") = .ok (.str "2023/5/10日月年") := by
  refine ⟨?_, by decide, by decide⟩
  rw [parse_date_string, if_pos h]

/-- Witness for the amended claim C4, at `"2023年5月10日"`. -/
theorem cjk_parse_amended_witness :
    parse_date_string (.str "2023年5月10日") = .ok (.date ⟨2023, 5, 10⟩) :=
  (cjk_parse_amended "2023年5月10日" (by decide)).2.1

/-- Claim C5: a three-part delimited split is read year-month-day when the
first part has exactly four characters; otherwise month-day-year when the
second part's integer value exceeds 12, and day-month-year when it does not
(an unparseable second part falls back to the unchanged string, as the
comparison itself raises).  In particular `"12/25/2023"` and `"25/12/2023"`
both normalize to `date(2023, 12, 25)`. -/
theorem delim_three_parts_order (v : String) (p0 p1 p2 : List Char)
    (hCJK : hasCJK v.data = false)
    (hdelim : (v.data.contains '/' || v.data.contains '-') = true)
    (hparts : delimParts v.data = [p0, p1, p2]) :
    parse_date_string (.str v) =
      (if p0.length = 4 then readAsYMD p0 p1 p2 v
       else
         match pyIntL p1 with
         | none => .ok (.str v)
         | some b => if 12 < b then readAsYMD p2 p0 p1 v else readAsYMD p2 p1 p0 v) ∧
    parse_date_string (.str "12/25/2023") = .ok (.date ⟨2023, 12, 25⟩) ∧
    parse_date_string (.str "25/12/2023") = .ok (.date ⟨2023, 12, 25⟩) := by
  refine ⟨?_, by decide, by decide⟩
  rw [parse_date_string, if_neg (by simp [hCJK]), if_pos hdelim, hparts]
  by_cases h4 : p0.length = 4
  · rw [trySlash, if_pos h4, if_pos h4]
    cases hp0 : pyIntL p0 <;> cases hp1 : pyIntL p1 <;> cases hp2 : pyIntL p2 <;>
      simp [readAsYMD, hp0, hp1, hp2]
  · rw [trySlash, if_neg h4, if_neg h4]
    cases hp1 : pyIntL p1 with
    | none => simp
    | some b =>
      by_cases hb : 12 < b
      · cases hp0 : pyIntL p0 <;> cases hp2 : pyIntL p2 <;>
          simp [readAsYMD, hb, hp0, hp1, hp2]
      · cases hp0 : pyIntL p0 <;> cases hp2 : pyIntL p2 <;>
          simp [readAsYMD, hb, hp0, hp1, hp2]

/-- Witness for claim C5, at `"12/25/2023"`. -/
theorem delim_three_parts_order_witness :
    parse_date_string (.str "12/25/2023") = .ok (.date ⟨2023, 12, 25⟩) :=
  (delim_three_parts_order "12/25/2023" "12".data "25".data "2023".data
    (by decide) (by decide) (by decide)).2.1

/-- Claim C6: when a string without the full Chinese-marker set contains a
delimiter, the code splits on `/` whenever `/` is present and on `-` only
when `/` is absent, regardless of which delimiter occurs first; a split
that is not exactly three parts leaves the string unchanged. -/
theorem delimiter_choice (v : String)
    (h1 : hasCJK v.data = false)
    (h2 : (v.data.contains '/' || v.data.contains '-') = true) :
    (v.data.contains '/' = true → delimParts v.data = splitOnChar '/' v.data) ∧
    (v.data.contains '/' = false → delimParts v.data = splitOnChar '-' v.data) ∧
    ((delimParts v.data).length ≠ 3 → parse_date_string (.str v) = .ok (.str v)) := by
  refine ⟨fun hc => ?_, fun hc => ?_, fun hlen => ?_⟩
  · rw [delimParts, if_pos hc]
  · rw [delimParts, if_neg (by simpa using hc)]
  · rw [parse_date_string, if_neg (by simp [h1]), if_pos h2,
      trySlash_fallthrough_of_length hlen]

/-- Witness for claim C6, at `"1-2/3"`: both delimiters present and `-`
first, yet the split is on `/`, yielding two parts, so the string passes
through unchanged. -/
theorem delimiter_choice_witness :
    parse_date_string (.str "1-2/3") = .ok (.str "1-2/3") :=
  (delimiter_choice "1-2/3" (by decide) (by decide)).2.2 (by decide)

/-- Counterexample to claim C7 as stated.  The claim says the normalized
content equals the conversion applied to the reflow of the raw content;
but the validator chain on `content` runs `s2hk_validator` (schema.py line
103) before `format_content` (line 108), so for a transform `t` whose
output introduces line structure the two orders differ: with
`t = fun _ => "a\nb"` and raw content `""`, the pipeline yields
`format_content "a\nb" = "ab"` while the claimed order yields `"a\nb"`. -/
theorem s2hk_order_counterexample :
    contentPipeline (fun _ => "a\nb") "" ≠ (fun _ => "a\nb") (format_content "") := by
  decide

/-- Claim C7 as amended: the script-conversion transform is applied before
sentence reflow, not after — for every transform `t` and content string
`c` the validator chain computes `format_content (t c)`, and this is not in
general the same as applying `t` after the reflow. -/
theorem s2hk_before_reflow :
    (∀ (t : String → String) (c : String), contentPipeline t c = format_content (t c)) ∧
    ¬(∀ (t : String → String) (c : String), contentPipeline t c = t (format_content c)) := by
  constructor
  · intro t c
    rfl
  · intro hall
    have h := hall (fun _ => "a\nb") ""
    revert h
    decide

/-- Claim C8: on input whose lines are each non-blank and each end in an
ending symbol, the reflow emits exactly the input lines, in order, each as
its own sentence, and the output is those lines rejoined with newlines. -/
theorem reflow_clean_identity (text : String)
    (h : ∀ l ∈ pySplitlines text.data,
      isBlankL l = false ∧ isEnding (lastCharD l) = true) :
    concatenateSentences (pySplitlines text.data) = pySplitlines text.data ∧
    format_content text = ⟨List.intercalate ['\n'] (pySplitlines text.data)⟩ := by
  have key : concatenateSentences (pySplitlines text.data) = pySplitlines text.data := by
    cases hl : pySplitlines text.data with
    | nil => rfl
    | cons l ls =>
      have hline := h l (by simp [hl])
      have hrest : ∀ x ∈ ls, isBlankL x = false ∧ isEnding (lastCharD x) = true :=
        fun x hx => h x (by simp [hl, hx])
      rw [concatenateSentences, concatAux, if_neg (by simp [hline.1]),
        if_pos (show List.isEmpty ([] : List Char) = true from rfl)]
      exact concatAux_clean ls l (ne_nil_of_not_blank hline.1) hline.2 hrest
  refine ⟨key, ?_⟩
  rw [format_content, key]

/-- Witness for claim C8, at `"A.\nB!"`. -/
theorem reflow_clean_identity_witness :
    format_content "A.\nB!" = "A.\nB!" := by
  have h := reflow_clean_identity "A.\nB!" (by decide)
  rw [h.2]
  decide

/-- Claim C9: the reflow never raises — the exception-transparent model, in
which the `current_sentence[-1]` lookup aborts when out of bounds, always
succeeds and agrees with the total function, because the lookup happens only
on the branch whose guard established a non-empty accumulator; and the
empty input produces the empty output. -/
theorem reflow_never_raises :
    (∀ content : String, formatContentE content = some (format_content content)) ∧
    format_content "" = "" := by
  constructor
  · intro content
    rw [formatContentE, concatAuxE_eq]
    rfl
  · decide

/-- Claim C10: reflow preserves text content — the concatenation of the
non-empty emitted sentences equals, character for character and in order,
the concatenation of the input lines that are not blank (whitespace-only
lines contribute nothing). -/
theorem reflow_content_preservation (text : String) :
    ((concatenateSentences (pySplitlines text.data)).filter
        (fun l => !l.isEmpty)).flatten =
      ((pySplitlines text.data).filter (fun l => !isBlankL l)).flatten := by
  rw [concatenateSentences, concatAux_join]
  rfl
